import Mathlib

/-!
Verification of the ARC JTAG debug-access driver
(`software/glasgow/applet/jtag/arc.py`): the transaction engine
(`identify`, `read`, `write`, `_wait_txn`) and the bit-field register
model it manipulates, embedded shallowly.  The transport port is an
oracle `resp : Nat → List Bool` giving the bits returned by the i-th
`read_dr` call of the current operation; each engine operation returns
the trace of transport operations it issued together with its result.
The `while` loop of `_wait_txn` is embedded with explicit fuel: `none`
means the fuel ran out before the loop terminated.
-/

namespace ArcJtag

/-- Bits shifted through a JTAG data register, least significant bit first,
mirroring the bitarray representation used by the codec. -/
abbrev Bits := List Bool

/-- Encode a natural number as a fixed-width LSB-first bit list.
Modelled from the spec: the Register Codec's `encode` produces a bit
sequence of fixed width W (the codec module itself is not part of the
excerpted source). -/
def natToBits : Nat → Nat → Bits
  | 0, _ => []
  | w + 1, n => (n % 2 = 1) :: natToBits w (n / 2)

/-- Decode an LSB-first bit list to a natural number.
Modelled from the spec: the Register Codec's `decode` is a pure
bit-field extraction. -/
def bitsToNat : Bits → Nat
  | [] => 0
  | b :: bs => (if b then 1 else 0) + 2 * bitsToNat bs

/-- Instruction-register selections used by the driver.
Modelled from the spec: the IR constants (`IR_IDCODE`, `IR_STATUS`,
`IR_ADDRESS`, `IR_DATA`, `IR_TXN_COMMAND`) are opaque codes imported
from the architecture tables, which are not part of the excerpted
source; we model them as an enumeration. -/
inductive IR where
  | IDCODE
  | STATUS
  | ADDRESS
  | DATA
  | TXN_COMMAND
deriving DecidableEq, Repr

/-- Transaction-command opcodes, one per (operation, address space) pair.
Modelled from the spec: the six `DR_TXN_COMMAND_*` constants are opaque
bit patterns of unspecified width, so we model them as an enumeration. -/
inductive TxnCommand where
  | READ_MEMORY
  | READ_CORE
  | READ_AUX
  | WRITE_MEMORY
  | WRITE_CORE
  | WRITE_AUX
deriving DecidableEq, Repr

/-- One observable operation issued on the transport port. -/
inductive Event where
  | writeIR (ir : IR)
  | writeDRBits (bits : Bits)
  | writeDRTxn (op : TxnCommand)
  | readDR (width : Nat)
deriving DecidableEq, Repr

/-- Errors surfaced by the engine.  `appletError` is the
`GlasgowAppletError` raised on a failed transaction, `assertionFailed`
is the Python `assert False` on an invalid address space, and
`transportError` stands for an error propagated unchanged from the
transport (never produced by the engine itself). -/
inductive Error where
  | assertionFailed
  | appletError (msg : String)
  | transportError
deriving DecidableEq, Repr

/-- The STATUS data register.
Modelled from the spec: a 4-bit register with at least the flags `RD`
(ready) and `FL` (fail); the exact bit positions are not given by the
excerpted source, so `RD` and `FL` are placed at bits 0 and 1 with the
remaining two bits reserved.  All claims depend only on the decoded
`RD`/`FL` values. -/
structure DR_STATUS where
  RD : Bool
  FL : Bool
  res2 : Bool
  res3 : Bool
deriving DecidableEq, Repr

/-- The zero-initialized STATUS value produced by the Python
constructor call `DR_STATUS()`: every field clear. -/
def DR_STATUS.init : DR_STATUS := ⟨false, false, false, false⟩

/-- Decode a 4-bit shift into a STATUS value. -/
def DR_STATUS.from_bitarray (bs : Bits) : DR_STATUS :=
  ⟨bs.getD 0 false, bs.getD 1 false, bs.getD 2 false, bs.getD 3 false⟩

/-- The ADDRESS data register: a single 32-bit `Address` field. -/
structure DR_ADDRESS where
  Address : Nat
deriving DecidableEq, Repr

/-- Encode an ADDRESS register to its 32-bit shift.
Modelled from the spec: ADDRESS is a 32-bit value. -/
def DR_ADDRESS.to_bitarray (r : DR_ADDRESS) : Bits := natToBits 32 r.Address

/-- Decode a 32-bit shift into an ADDRESS register. -/
def DR_ADDRESS.from_bitarray (bs : Bits) : DR_ADDRESS := ⟨bitsToNat bs⟩

/-- The DATA data register: a single 32-bit `Data` field. -/
structure DR_DATA where
  Data : Nat
deriving DecidableEq, Repr

/-- Encode a DATA register to its 32-bit shift.
Modelled from the spec: DATA is a 32-bit value. -/
def DR_DATA.to_bitarray (r : DR_DATA) : Bits := natToBits 32 r.Data

/-- Decode a 32-bit shift into a DATA register. -/
def DR_DATA.from_bitarray (bs : Bits) : DR_DATA := ⟨bitsToNat bs⟩

/-- The IDCODE data register.
Modelled from the spec: a 32-bit register with fields `mfg_id`,
`part_id` and `version`, laid out per the standard JTAG IDCODE format
(1-bit presence marker, 11-bit manufacturer id, 16-bit part id, 4-bit
version, LSB first). -/
structure DR_IDCODE where
  present : Bool
  mfg_id : Nat
  part_id : Nat
  version : Nat
deriving DecidableEq, Repr

/-- Encode an IDCODE register to its 32-bit shift. -/
def DR_IDCODE.to_bitarray (r : DR_IDCODE) : Bits :=
  r.present :: (natToBits 11 r.mfg_id ++ (natToBits 16 r.part_id ++ natToBits 4 r.version))

/-- Decode a 32-bit shift into an IDCODE register. -/
def DR_IDCODE.from_bitarray (bs : Bits) : DR_IDCODE :=
  ⟨bs.getD 0 false,
   bitsToNat ((bs.drop 1).take 11),
   bitsToNat ((bs.drop 12).take 16),
   bitsToNat ((bs.drop 28).take 4)⟩

/-- A device descriptor from the Device Catalog.
Modelled from the spec: an immutable record; only the name matters to
the excerpted source. -/
structure Device where
  name : String
deriving DecidableEq, Repr

/-- The opcode selected by `read` for a given address-space string:
`none` models reaching the `assert False` branch. -/
def readTxnCommandOf (space : String) : Option TxnCommand :=
  if space = "memory" then some .READ_MEMORY
  else if space = "core" then some .READ_CORE
  else if space = "aux" then some .READ_AUX
  else none

/-- The opcode selected by `write` for a given address-space string:
`none` models reaching the `assert False` branch. -/
def writeTxnCommandOf (space : String) : Option TxnCommand :=
  if space = "memory" then some .WRITE_MEMORY
  else if space = "core" then some .WRITE_CORE
  else if space = "aux" then some .WRITE_AUX
  else none

/-- The polling loop of `_wait_txn`: starting at read index `k` with
current decoded status `st`, repeatedly shift 4 bits from DR while
`RD` is clear, raising `appletError` as soon as a decoded status has
`FL` set.  Returns the trace of DR reads, the next free read index,
and the outcome; `none` when the fuel is exhausted before the loop
exits. -/
def wait_loop (resp : Nat → Bits) : Nat → Nat → DR_STATUS → Option (List Event × Nat × Except Error Unit)
  | 0, k, st => if st.RD then some ([], k, .ok ()) else none
  | fuel + 1, k, st =>
    if st.RD then some ([], k, .ok ())
    else
      let st2 := DR_STATUS.from_bitarray (resp k)
      if st2.FL then some ([.readDR 4], k + 1, .error (.appletError "transaction failed"))
      else
        match wait_loop resp fuel (k + 1) st2 with
        | none => none
        | some (tr, j, r) => some (.readDR 4 :: tr, j, r)

/-- `_wait_txn`: select IR=STATUS once, then run the polling loop with
the status variable initialized to the zero `DR_STATUS()`. -/
def wait_txn (resp : Nat → Bits) (fuel : Nat) : Option (List Event × Nat × Except Error Unit) :=
  match wait_loop resp fuel 0 DR_STATUS.init with
  | none => none
  | some (tr, k, r) => some (Event.writeIR IR.STATUS :: tr, k, r)

/-- `identify`: select IR=IDCODE, shift 32 bits from DR, decode, and
pair the decoded IDCODE with the Device Catalog lookup.
The catalog (`devices` from the database module, not part of the
excerpted source) is modelled from the spec as an injected total
lookup returning `none` for unknown devices. -/
def identify (resp : Nat → Bits) (catalog : Nat → Nat → Option Device) :
    List Event × DR_IDCODE × Option Device :=
  let idcode := DR_IDCODE.from_bitarray (resp 0)
  ([.writeIR .IDCODE, .readDR 32], idcode, catalog idcode.mfg_id idcode.part_id)

/-- `read`: map the space to a read opcode (asserting on an unknown
space before any transport operation), shift the encoded address,
shift the opcode, wait for completion, then shift 32 bits from the
DATA register and return its `Data` field. -/
def read (resp : Nat → Bits) (fuel : Nat) (address : Nat) (space : String) :
    Option (List Event × Except Error Nat) :=
  match readTxnCommandOf space with
  | none => some ([], .error .assertionFailed)
  | some cmd =>
    let pre : List Event :=
      [.writeIR .ADDRESS, .writeDRBits (DR_ADDRESS.to_bitarray ⟨address⟩),
       .writeIR .TXN_COMMAND, .writeDRTxn cmd]
    match wait_txn resp fuel with
    | none => none
    | some (wtr, _, .error e) => some (pre ++ wtr, .error e)
    | some (wtr, k, .ok ()) =>
      some (pre ++ wtr ++ [.writeIR .DATA, .readDR 32],
            .ok (DR_DATA.from_bitarray (resp k)).Data)

/-- `write`: map the space to a write opcode (asserting on an unknown
space before any transport operation), shift the encoded address, the
encoded data, and the opcode, then wait for completion; returns
nothing on success. -/
def write (resp : Nat → Bits) (fuel : Nat) (address data : Nat) (space : String) :
    Option (List Event × Except Error Unit) :=
  match writeTxnCommandOf space with
  | none => some ([], .error .assertionFailed)
  | some cmd =>
    let pre : List Event :=
      [.writeIR .ADDRESS, .writeDRBits (DR_ADDRESS.to_bitarray ⟨address⟩),
       .writeIR .DATA, .writeDRBits (DR_DATA.to_bitarray ⟨data⟩),
       .writeIR .TXN_COMMAND, .writeDRTxn cmd]
    match wait_txn resp fuel with
    | none => none
    | some (wtr, _, r) => some (pre ++ wtr, r)

/-- The sequence of IR selections in a transport trace. -/
def irTrace (tr : List Event) : List IR :=
  tr.filterMap fun e => match e with | .writeIR ir => some ir | _ => none

/-- A decoded status that keeps the polling loop going: neither ready
nor failed. -/
def nonTerminal (bs : Bits) : Prop :=
  (DR_STATUS.from_bitarray bs).RD = false ∧ (DR_STATUS.from_bitarray bs).FL = false

instance (bs : Bits) : Decidable (nonTerminal bs) := by
  unfold nonTerminal; infer_instance

/-- The transport's status responses make poll `n` the first
successful poll: all earlier polls are non-terminal and poll `n`
reads back `RD` set with `FL` clear. -/
def pollsSucceedAt (resp : Nat → Bits) (n : Nat) : Prop :=
  (∀ i < n, nonTerminal (resp i)) ∧
    (DR_STATUS.from_bitarray (resp n)).RD = true ∧
    (DR_STATUS.from_bitarray (resp n)).FL = false

/-- The transport's status responses make poll `n` the first failed
poll: all earlier polls are non-terminal and poll `n` reads back `FL`
set. -/
def pollsFailAt (resp : Nat → Bits) (n : Nat) : Prop :=
  (∀ i < n, nonTerminal (resp i)) ∧ (DR_STATUS.from_bitarray (resp n)).FL = true

instance (resp : Nat → Bits) (n : Nat) : Decidable (pollsSucceedAt resp n) := by
  unfold pollsSucceedAt; infer_instance

instance (resp : Nat → Bits) (n : Nat) : Decidable (pollsFailAt resp n) := by
  unfold pollsFailAt; infer_instance

/-- A simulated transport that reports ready on the very first status
poll and supplies `0xDEADBEEF` on every later DR read. -/
def respOk : Nat → Bits :=
  fun i => if i = 0 then [true, false, false, false] else natToBits 32 0xDEADBEEF

/-- A simulated transport that reports three non-terminal status polls
before reporting ready. -/
def respOk3 : Nat → Bits :=
  fun i => if i < 3 then [false, false, false, false] else [true, false, false, false]

/-- A simulated transport that reports a failed transaction on the
very first status poll. -/
def respFail : Nat → Bits :=
  fun _ => [false, true, false, false]

/-- A simulated transport whose status polls never report ready or
failed. -/
def respSpin : Nat → Bits :=
  fun _ => [false, false, false, false]

theorem wait_loop_rd (resp : Nat → Bits) (fuel k : Nat) (st : DR_STATUS) (h : st.RD = true) :
    wait_loop resp fuel k st = some ([], k, .ok ()) := by
  cases fuel <;> simp [wait_loop, h]

theorem wait_loop_success (resp : Nat → Bits) :
    ∀ (n fuel k : Nat) (st : DR_STATUS), st.RD = false →
    (∀ i < n, nonTerminal (resp (k + i))) →
    (DR_STATUS.from_bitarray (resp (k + n))).RD = true →
    (DR_STATUS.from_bitarray (resp (k + n))).FL = false →
    n < fuel →
    wait_loop resp fuel k st =
      some (List.replicate (n + 1) (.readDR 4), k + n + 1, .ok ()) := by
  intro n
  induction n with
  | zero =>
    intro fuel k st hst _ hRD hFL hfuel
    match fuel, hfuel with
    | f + 1, _ =>
      rw [Nat.add_zero] at hRD hFL
      simp [wait_loop, hst, hFL, wait_loop_rd resp f (k + 1) _ hRD]
  | succ n ih =>
    intro fuel k st hst hpre hRD hFL hfuel
    match fuel, hfuel with
    | f + 1, hfuel =>
      have h0 : nonTerminal (resp k) := by
        have := hpre 0 (Nat.succ_pos n); simpa using this
      have hrec := ih f (k + 1) (DR_STATUS.from_bitarray (resp k)) h0.1
        (fun i hi => by
          have := hpre (i + 1) (Nat.succ_lt_succ hi)
          have he : k + (i + 1) = k + 1 + i := by omega
          rwa [he] at this)
        (by rwa [show k + (n + 1) = k + 1 + n from by omega] at hRD)
        (by rwa [show k + (n + 1) = k + 1 + n from by omega] at hFL)
        (Nat.lt_of_succ_lt_succ hfuel)
      simp [wait_loop, hst, h0.2, hrec, List.replicate_succ]
      omega

theorem wait_loop_fail (resp : Nat → Bits) :
    ∀ (n fuel k : Nat) (st : DR_STATUS), st.RD = false →
    (∀ i < n, nonTerminal (resp (k + i))) →
    (DR_STATUS.from_bitarray (resp (k + n))).FL = true →
    n < fuel →
    wait_loop resp fuel k st =
      some (List.replicate (n + 1) (.readDR 4), k + n + 1,
            .error (.appletError "transaction failed")) := by
  intro n
  induction n with
  | zero =>
    intro fuel k st hst _ hFL hfuel
    match fuel, hfuel with
    | f + 1, _ =>
      rw [Nat.add_zero] at hFL
      simp [wait_loop, hst, hFL]
  | succ n ih =>
    intro fuel k st hst hpre hFL hfuel
    match fuel, hfuel with
    | f + 1, hfuel =>
      have h0 : nonTerminal (resp k) := by
        have := hpre 0 (Nat.succ_pos n); simpa using this
      have hrec := ih f (k + 1) (DR_STATUS.from_bitarray (resp k)) h0.1
        (fun i hi => by
          have := hpre (i + 1) (Nat.succ_lt_succ hi)
          have he : k + (i + 1) = k + 1 + i := by omega
          rwa [he] at this)
        (by rwa [show k + (n + 1) = k + 1 + n from by omega] at hFL)
        (Nat.lt_of_succ_lt_succ hfuel)
      simp [wait_loop, hst, h0.2, hrec, List.replicate_succ]
      omega

theorem wait_loop_diverge (resp : Nat → Bits) (hall : ∀ i, nonTerminal (resp i)) :
    ∀ (fuel k : Nat) (st : DR_STATUS), st.RD = false → wait_loop resp fuel k st = none := by
  intro fuel
  induction fuel with
  | zero => intro k st hst; simp [wait_loop, hst]
  | succ f ih =>
    intro k st hst
    simp [wait_loop, hst, (hall k).2, ih (k + 1) _ (hall k).1]

theorem wait_loop_reads (resp : Nat → Bits) :
    ∀ (fuel k : Nat) (st : DR_STATUS) (tr : List Event) (j : Nat) (r : Except Error Unit),
    st.RD = false → wait_loop resp fuel k st = some (tr, j, r) →
    Event.readDR 4 ∈ tr ∧ k + 1 ≤ j := by
  intro fuel
  induction fuel with
  | zero => intro k st tr j r hst h; simp [wait_loop, hst] at h
  | succ f ih =>
    intro k st tr j r hst h
    simp only [wait_loop, hst, if_false, Bool.false_eq_true] at h
    by_cases hFL : (DR_STATUS.from_bitarray (resp k)).FL = true
    · simp [hFL] at h
      obtain ⟨htr, hj, -⟩ := h
      subst htr; subst hj
      exact ⟨List.mem_singleton.mpr rfl, Nat.le_refl _⟩
    · simp [hFL] at h
      by_cases hRD : (DR_STATUS.from_bitarray (resp k)).RD = true
      · rw [wait_loop_rd resp f (k + 1) _ hRD] at h
        simp at h
        obtain ⟨htr, hj, -⟩ := h
        subst htr; subst hj
        exact ⟨List.mem_cons_self _ _, Nat.le_refl _⟩
      · match hrec : wait_loop resp f (k + 1) (DR_STATUS.from_bitarray (resp k)) with
        | none => rw [hrec] at h; simp at h
        | some (tr2, j2, r2) =>
          rw [hrec] at h; simp at h
          obtain ⟨htr, hj, -⟩ := h
          have := ih (k + 1) _ tr2 j2 r2 (Bool.eq_false_iff.mpr hRD |>.symm ▸ rfl) hrec
          subst htr; subst hj
          exact ⟨List.mem_cons_of_mem _ this.1, by omega⟩

theorem wait_loop_ok_last (resp : Nat → Bits) :
    ∀ (fuel k : Nat) (st : DR_STATUS) (tr : List Event) (j : Nat),
    st.RD = false → wait_loop resp fuel k st = some (tr, j, .ok ()) →
    (DR_STATUS.from_bitarray (resp (j - 1))).RD = true := by
  intro fuel
  induction fuel with
  | zero => intro k st tr j hst h; simp [wait_loop, hst] at h
  | succ f ih =>
    intro k st tr j hst h
    simp only [wait_loop, hst, if_false, Bool.false_eq_true] at h
    by_cases hFL : (DR_STATUS.from_bitarray (resp k)).FL = true
    · simp [hFL] at h
    · simp [hFL] at h
      by_cases hRD : (DR_STATUS.from_bitarray (resp k)).RD = true
      · rw [wait_loop_rd resp f (k + 1) _ hRD] at h
        simp at h
        obtain ⟨-, hj⟩ := h
        subst hj
        simpa using hRD
      · match hrec : wait_loop resp f (k + 1) (DR_STATUS.from_bitarray (resp k)) with
        | none => rw [hrec] at h; simp at h
        | some (tr2, j2, r2) =>
          rw [hrec] at h; simp at h
          obtain ⟨-, hj, hr⟩ := h
          subst hj
          cases r2 with
          | error e => exact absurd hr (by simp)
          | ok u =>
            exact ih (k + 1) _ tr2 j2 (Bool.not_eq_true _ ▸ hRD) hrec

theorem DR_STATUS_init_RD : DR_STATUS.init.RD = false := rfl

theorem wait_txn_success (resp : Nat → Bits) (n fuel : Nat)
    (h : pollsSucceedAt resp n) (hf : n < fuel) :
    wait_txn resp fuel =
      some (Event.writeIR IR.STATUS :: List.replicate (n + 1) (.readDR 4), n + 1, .ok ()) := by
  have hw := wait_loop_success resp n fuel 0 DR_STATUS.init rfl
    (fun i hi => by simpa using h.1 i hi)
    (by simpa using h.2.1) (by simpa using h.2.2) hf
  simp [wait_txn, hw]

theorem wait_txn_fail (resp : Nat → Bits) (n fuel : Nat)
    (h : pollsFailAt resp n) (hf : n < fuel) :
    wait_txn resp fuel =
      some (Event.writeIR IR.STATUS :: List.replicate (n + 1) (.readDR 4), n + 1,
            .error (.appletError "transaction failed")) := by
  have hw := wait_loop_fail resp n fuel 0 DR_STATUS.init rfl
    (fun i hi => by simpa using h.1 i hi)
    (by simpa using h.2) hf
  simp [wait_txn, hw]

theorem wait_txn_diverge (resp : Nat → Bits) (hall : ∀ i, nonTerminal (resp i)) (fuel : Nat) :
    wait_txn resp fuel = none := by
  simp [wait_txn, wait_loop_diverge resp hall fuel 0 DR_STATUS.init rfl]

theorem wait_txn_reads (resp : Nat → Bits) (fuel : Nat) (tr : List Event) (j : Nat)
    (r : Except Error Unit) (h : wait_txn resp fuel = some (tr, j, r)) :
    Event.readDR 4 ∈ tr ∧ 1 ≤ j := by
  unfold wait_txn at h
  match hw : wait_loop resp fuel 0 DR_STATUS.init with
  | none => rw [hw] at h; simp at h
  | some (tr2, j2, r2) =>
    rw [hw] at h; simp at h
    obtain ⟨htr, hj, -⟩ := h
    have := wait_loop_reads resp fuel 0 DR_STATUS.init tr2 j2 r2 rfl hw
    subst htr; subst hj
    exact ⟨List.mem_cons_of_mem _ this.1, this.2⟩

theorem wait_txn_ok_last (resp : Nat → Bits) (fuel : Nat) (tr : List Event) (j : Nat)
    (h : wait_txn resp fuel = some (tr, j, .ok ())) :
    (DR_STATUS.from_bitarray (resp (j - 1))).RD = true := by
  unfold wait_txn at h
  match hw : wait_loop resp fuel 0 DR_STATUS.init with
  | none => rw [hw] at h; simp at h
  | some (tr2, j2, r2) =>
    rw [hw] at h; simp at h
    obtain ⟨-, hj, hr⟩ := h
    subst hj
    cases r2 with
    | error e => exact absurd hr (by simp)
    | ok u => exact wait_loop_ok_last resp fuel 0 DR_STATUS.init tr2 j2 rfl hw

theorem natToBits_length (w n : Nat) : (natToBits w n).length = w := by
  induction w generalizing n with
  | zero => rfl
  | succ w ih => simp [natToBits, ih]

theorem bitsToNat_natToBits (w : Nat) : ∀ n, n < 2 ^ w → bitsToNat (natToBits w n) = n := by
  induction w with
  | zero =>
    intro n h
    have : n = 0 := Nat.lt_one_iff.mp h
    subst this; rfl
  | succ w ih =>
    intro n h
    have hdiv : n / 2 < 2 ^ w := by
      rw [pow_succ] at h; omega
    simp only [natToBits, bitsToNat, ih (n / 2) hdiv]
    by_cases h2 : n % 2 = 1 <;> simp [h2] <;> omega

theorem irTrace_replicate (m w : Nat) : irTrace (List.replicate m (Event.readDR w)) = [] := by
  induction m with
  | zero => rfl
  | succ m _ =>
    rw [List.replicate_succ]
    simp [irTrace, List.filterMap_cons]

/-- Claim C1: for every 32-bit address and space `"memory"`, when every
status poll issued eventually yields `RD=1` with `FL` never set (polls
`0..n-1` non-terminal, poll `n` ready), `read` issues IR selections in
exactly the order `[ADDRESS, TXN_COMMAND, STATUS, DATA]`, with DR
shifts of the encoded address, the `READ_MEMORY` opcode, the status
polls, and a final 32-bit DR read, and returns the `Data` field decoded
from that final DR read. -/
theorem read_memory_success_trace (resp : Nat → Bits) (fuel address n : Nat)
    (_haddr : address < 2 ^ 32) (hpoll : pollsSucceedAt resp n) (hfuel : n < fuel) :
    read resp fuel address "memory" =
      some ([.writeIR .ADDRESS, .writeDRBits (natToBits 32 address),
             .writeIR .TXN_COMMAND, .writeDRTxn .READ_MEMORY,
             .writeIR .STATUS] ++ List.replicate (n + 1) (.readDR 4) ++
            [.writeIR .DATA, .readDR 32],
            .ok (DR_DATA.from_bitarray (resp (n + 1))).Data) ∧
    irTrace ([.writeIR .ADDRESS, .writeDRBits (natToBits 32 address),
              .writeIR .TXN_COMMAND, .writeDRTxn .READ_MEMORY,
              .writeIR .STATUS] ++ List.replicate (n + 1) (.readDR 4) ++
             [.writeIR .DATA, .readDR 32]) =
      [IR.ADDRESS, IR.TXN_COMMAND, IR.STATUS, IR.DATA] := by
  constructor
  · unfold read readTxnCommandOf
    rw [if_pos rfl, wait_txn_success resp n fuel hpoll hfuel]
    simp [DR_ADDRESS.to_bitarray]
  · simp [irTrace, List.filterMap_append, List.filterMap_cons]

/-- Claim C1 witness: a concrete run at address `0x12345678` with
immediate readiness returning `0xDEADBEEF`. -/
theorem read_memory_success_trace_witness :
    read respOk 2 0x12345678 "memory" =
      some ([.writeIR .ADDRESS, .writeDRBits (natToBits 32 0x12345678),
             .writeIR .TXN_COMMAND, .writeDRTxn .READ_MEMORY,
             .writeIR .STATUS] ++ List.replicate 1 (.readDR 4) ++
            [.writeIR .DATA, .readDR 32],
            .ok 0xDEADBEEF) := by
  have h := read_memory_success_trace respOk 2 0x12345678 0
    (by decide) (by decide) (by decide)
  exact h.1.trans (by rfl)

/-- Claim C2: for every 32-bit address and data and every valid space,
`write` issues DR shifts in the order encoded `ADDRESS`, encoded
`DATA`, matching `WRITE_*` opcode, then the status polls, and returns
no value on success. -/
theorem write_success_trace (resp : Nat → Bits) (fuel address data n : Nat)
    (space : String) (cmd : TxnCommand)
    (_haddr : address < 2 ^ 32) (_hdata : data < 2 ^ 32)
    (hspace : writeTxnCommandOf space = some cmd)
    (hpoll : pollsSucceedAt resp n) (hfuel : n < fuel) :
    write resp fuel address data space =
      some ([.writeIR .ADDRESS, .writeDRBits (natToBits 32 address),
             .writeIR .DATA, .writeDRBits (natToBits 32 data),
             .writeIR .TXN_COMMAND, .writeDRTxn cmd,
             .writeIR .STATUS] ++ List.replicate (n + 1) (.readDR 4),
            .ok ()) := by
  unfold write
  rw [hspace, wait_txn_success resp n fuel hpoll hfuel]
  simp [DR_ADDRESS.to_bitarray, DR_DATA.to_bitarray]

/-- Claim C2 witness: a concrete `write` to the core space with
immediate readiness. -/
theorem write_success_trace_witness :
    write respOk 2 0x100 0x42 "core" =
      some ([.writeIR .ADDRESS, .writeDRBits (natToBits 32 0x100),
             .writeIR .DATA, .writeDRBits (natToBits 32 0x42),
             .writeIR .TXN_COMMAND, .writeDRTxn .WRITE_CORE,
             .writeIR .STATUS] ++ List.replicate 1 (.readDR 4),
            .ok ()) :=
  write_success_trace respOk 2 0x100 0x42 0 "core" .WRITE_CORE
    (by decide) (by decide) (by decide) (by decide) (by decide)

/-- Claim C3: if a status poll reads back `FL` set (after any number of
non-terminal polls, including zero), both `read` and `write` raise the
transaction-failure error (distinct from a transport error) at that
poll and issue nothing after the STATUS phase — in particular a failed
`read` never selects IR=DATA and never performs the 32-bit data DR
read. -/
theorem txn_fail_no_data_phase (resp : Nat → Bits) (fuel address data n : Nat)
    (space : String) (rcmd wcmd : TxnCommand)
    (hr : readTxnCommandOf space = some rcmd) (hw : writeTxnCommandOf space = some wcmd)
    (hpoll : pollsFailAt resp n) (hfuel : n < fuel) :
    (read resp fuel address space =
       some ([.writeIR .ADDRESS, .writeDRBits (natToBits 32 address),
              .writeIR .TXN_COMMAND, .writeDRTxn rcmd,
              .writeIR .STATUS] ++ List.replicate (n + 1) (.readDR 4),
             .error (.appletError "transaction failed"))) ∧
    Event.writeIR IR.DATA ∉
      ([.writeIR .ADDRESS, .writeDRBits (natToBits 32 address),
        .writeIR .TXN_COMMAND, .writeDRTxn rcmd,
        .writeIR .STATUS] ++ List.replicate (n + 1) (Event.readDR 4)) ∧
    Event.readDR 32 ∉
      ([.writeIR .ADDRESS, .writeDRBits (natToBits 32 address),
        .writeIR .TXN_COMMAND, .writeDRTxn rcmd,
        .writeIR .STATUS] ++ List.replicate (n + 1) (Event.readDR 4)) ∧
    (write resp fuel address data space =
       some ([.writeIR .ADDRESS, .writeDRBits (natToBits 32 address),
              .writeIR .DATA, .writeDRBits (natToBits 32 data),
              .writeIR .TXN_COMMAND, .writeDRTxn wcmd,
              .writeIR .STATUS] ++ List.replicate (n + 1) (.readDR 4),
             .error (.appletError "transaction failed"))) ∧
    Error.appletError "transaction failed" ≠ Error.transportError := by
  refine ⟨?_, ?_, ?_, ?_, by decide⟩
  · unfold read
    rw [hr, wait_txn_fail resp n fuel hpoll hfuel]
    simp [DR_ADDRESS.to_bitarray]
  · simp [List.mem_append, List.mem_replicate]
  · simp [List.mem_append, List.mem_replicate]
  · unfold write
    rw [hw, wait_txn_fail resp n fuel hpoll hfuel]
    simp [DR_ADDRESS.to_bitarray, DR_DATA.to_bitarray]

/-- Claim C3 witness: a concrete failing run with `FL` set on the very
first poll. -/
theorem txn_fail_no_data_phase_witness :
    pollsFailAt respFail 0 ∧
    read respFail 1 0 "memory" =
      some ([.writeIR .ADDRESS, .writeDRBits (natToBits 32 0),
             .writeIR .TXN_COMMAND, .writeDRTxn .READ_MEMORY,
             .writeIR .STATUS] ++ List.replicate 1 (.readDR 4),
            .error (.appletError "transaction failed")) :=
  ⟨by decide,
   (txn_fail_no_data_phase respFail 1 0 0 0 "memory" .READ_MEMORY .WRITE_MEMORY
      (by decide) (by decide) (by decide) (by decide)).1⟩

/-- Claim C4: `identify` selects IR=IDCODE, shifts exactly 32 bits from
DR, decodes them as an IDCODE, and returns the decoded IDCODE paired
with the catalog lookup for `(mfg_id, part_id)`; an unknown device
yields the decoded IDCODE with a `none` device and no failure. -/
theorem identify_trace (resp : Nat → Bits) (catalog : Nat → Nat → Option Device) :
    identify resp catalog =
      ([.writeIR .IDCODE, .readDR 32],
       DR_IDCODE.from_bitarray (resp 0),
       catalog (DR_IDCODE.from_bitarray (resp 0)).mfg_id
               (DR_IDCODE.from_bitarray (resp 0)).part_id) ∧
    (identify resp fun _ _ => none).2.2 = none :=
  ⟨rfl, rfl⟩

/-- Claim C5: for every space outside `{"memory", "core", "aux"}`, both
`read` and `write` fail via the assertion before issuing any transport
operation (the trace is empty), and the assertion failure is distinct
from the recoverable error results. -/
theorem invalid_space_asserts (resp : Nat → Bits) (fuel address data : Nat) (space : String)
    (h1 : space ≠ "memory") (h2 : space ≠ "core") (h3 : space ≠ "aux") :
    read resp fuel address space = some ([], .error .assertionFailed) ∧
    write resp fuel address data space = some ([], .error .assertionFailed) ∧
    (∀ msg, Error.assertionFailed ≠ Error.appletError msg) ∧
    Error.assertionFailed ≠ Error.transportError := by
  refine ⟨?_, ?_, fun msg h => by exact absurd h (by simp), by decide⟩
  · simp [read, readTxnCommandOf, h1, h2, h3]
  · simp [write, writeTxnCommandOf, h1, h2, h3]

/-- Claim C5 witness: the space `"flash"` is rejected by both `read`
and `write` with an empty transport trace. -/
theorem invalid_space_asserts_witness :
    read respOk 5 0 "flash" = some ([], .error .assertionFailed) ∧
    write respOk 5 0 0 "flash" = some ([], .error .assertionFailed) :=
  ⟨(invalid_space_asserts respOk 5 0 0 "flash" (by decide) (by decide) (by decide)).1,
   (invalid_space_asserts respOk 5 0 0 "flash" (by decide) (by decide) (by decide)).2.1⟩

/-- Claim C6: the wait-for-completion loop writes IR=STATUS exactly
once, every non-terminal poll is followed by another 4-bit DR shift,
and the engine enforces no upper bound on the number of polls: any
number (at least 3) of consecutive non-terminal polls is tolerated
before a later ready poll yields success. -/
theorem polling_tolerates_nonterminal (resp : Nat → Bits) (fuel n : Nat)
    (hpoll : pollsSucceedAt resp n) (h3 : 3 ≤ n) (hfuel : n < fuel) :
    wait_txn resp fuel =
      some (Event.writeIR IR.STATUS :: List.replicate (n + 1) (.readDR 4), n + 1, .ok ()) ∧
    (Event.writeIR IR.STATUS :: List.replicate (n + 1) (Event.readDR 4)).count
        (Event.writeIR IR.STATUS) = 1 ∧
    irTrace (Event.writeIR IR.STATUS :: List.replicate (n + 1) (Event.readDR 4)) =
      [IR.STATUS] ∧
    (Event.writeIR IR.STATUS :: List.replicate (n + 1) (Event.readDR 4)).count
        (Event.readDR 4) = n + 1 ∧
    4 ≤ n + 1 := by
  refine ⟨wait_txn_success resp n fuel hpoll hfuel, ?_, ?_, ?_, by omega⟩
  · simp [List.count_cons, List.count_replicate]
  · simp [irTrace, List.filterMap_cons]
  · simp [List.count_cons, List.count_replicate]

/-- Claim C6 witness: three consecutive non-terminal polls before a
ready poll, four status reads in total. -/
theorem polling_tolerates_nonterminal_witness :
    pollsSucceedAt respOk3 3 ∧
    wait_txn respOk3 4 =
      some (Event.writeIR IR.STATUS :: List.replicate 4 (.readDR 4), 4, .ok ()) :=
  ⟨by decide, (polling_tolerates_nonterminal respOk3 4 3 (by decide) (by decide) (by decide)).1⟩

/-- Claim C7: `_wait_txn` terminates precisely when some status poll
reads back `RD` or `FL` set: if such a poll exists, some fuel makes
the loop return a result; if every poll is non-terminal, the loop
spins forever (no fuel suffices). -/
theorem wait_txn_terminates_iff (resp : Nat → Bits) :
    ((∃ n, (DR_STATUS.from_bitarray (resp n)).RD = true ∨
           (DR_STATUS.from_bitarray (resp n)).FL = true) →
      ∃ fuel tr k r, wait_txn resp fuel = some (tr, k, r)) ∧
    ((∀ n, nonTerminal (resp n)) → ∀ fuel, wait_txn resp fuel = none) := by
  constructor
  · intro h
    have hn0 := Nat.find_spec h
    have hpre : ∀ i < Nat.find h, nonTerminal (resp i) := by
      intro i hi
      have hmin := Nat.find_min h hi
      exact ⟨by simpa using (not_or.mp hmin).1, by simpa using (not_or.mp hmin).2⟩
    by_cases hFL : (DR_STATUS.from_bitarray (resp (Nat.find h))).FL = true
    · exact ⟨Nat.find h + 1, _, _, _,
        wait_txn_fail resp (Nat.find h) (Nat.find h + 1) ⟨hpre, hFL⟩ (Nat.lt_succ_self _)⟩
    · have hRD : (DR_STATUS.from_bitarray (resp (Nat.find h))).RD = true := by
        rcases hn0 with hRD | hFL2
        · exact hRD
        · exact absurd hFL2 hFL
      exact ⟨Nat.find h + 1, _, _, _,
        wait_txn_success resp (Nat.find h) (Nat.find h + 1)
          ⟨hpre, hRD, by simpa using hFL⟩ (Nat.lt_succ_self _)⟩
  · intro hall fuel
    exact wait_txn_diverge resp hall fuel

/-- Claim C7 witness: a transport reporting ready on poll 3 makes the
loop terminate, and a transport that never reports ready or failed
makes it spin for every amount of fuel. -/
theorem wait_txn_terminates_iff_witness :
    (∃ fuel tr k r, wait_txn respOk3 fuel = some (tr, k, r)) ∧
    (∀ fuel, wait_txn respSpin fuel = none) :=
  ⟨(wait_txn_terminates_iff respOk3).1 ⟨3, by decide⟩,
   (wait_txn_terminates_iff respSpin).2 (fun _ => ⟨rfl, rfl⟩)⟩

/-- Claim C8: for the IDCODE, ADDRESS and DATA register codecs,
decoding the encoding of any valid field assignment yields the
original fields, and each encoding has the register's fixed 32-bit
width; decode is a total bit-field extraction. -/
theorem codec_roundtrip (a d : Nat) (idc : DR_IDCODE)
    (ha : a < 2 ^ 32) (hd : d < 2 ^ 32)
    (hm : idc.mfg_id < 2 ^ 11) (hp : idc.part_id < 2 ^ 16) (hv : idc.version < 2 ^ 4) :
    DR_ADDRESS.from_bitarray (DR_ADDRESS.to_bitarray ⟨a⟩) = ⟨a⟩ ∧
    DR_DATA.from_bitarray (DR_DATA.to_bitarray ⟨d⟩) = ⟨d⟩ ∧
    DR_IDCODE.from_bitarray (DR_IDCODE.to_bitarray idc) = idc ∧
    (DR_ADDRESS.to_bitarray ⟨a⟩).length = 32 ∧
    (DR_DATA.to_bitarray ⟨d⟩).length = 32 ∧
    (DR_IDCODE.to_bitarray idc).length = 32 := by
  obtain ⟨p, mfg, part, ver⟩ := idc
  simp only at hm hp hv
  refine ⟨?_, ?_, ?_, ?_, ?_, ?_⟩
  · simp [DR_ADDRESS.from_bitarray, DR_ADDRESS.to_bitarray, bitsToNat_natToBits 32 a ha]
  · simp [DR_DATA.from_bitarray, DR_DATA.to_bitarray, bitsToNat_natToBits 32 d hd]
  · have hA : (natToBits 11 mfg).length = 11 := natToBits_length 11 mfg
    have hB : (natToBits 16 part).length = 16 := natToBits_length 16 part
    have hC : (natToBits 4 ver).length = 4 := natToBits_length 4 ver
    simp only [DR_IDCODE.to_bitarray, DR_IDCODE.from_bitarray]
    have h1 : ((p :: (natToBits 11 mfg ++ (natToBits 16 part ++ natToBits 4 ver))).drop 1)
        = natToBits 11 mfg ++ (natToBits 16 part ++ natToBits 4 ver) := rfl
    have h12 : ((p :: (natToBits 11 mfg ++ (natToBits 16 part ++ natToBits 4 ver))).drop 12)
        = natToBits 16 part ++ natToBits 4 ver := by
      rw [List.drop_succ_cons, List.drop_left' hA]
    have h28 : ((p :: (natToBits 11 mfg ++ (natToBits 16 part ++ natToBits 4 ver))).drop 28)
        = natToBits 4 ver := by
      rw [List.drop_succ_cons, show (27 : Nat) = 11 + 16 from rfl, ← List.drop_drop,
          List.drop_left' hA, List.drop_left' hB]
    rw [h1, h12, h28, List.take_left' hA, List.take_left' hB,
        List.take_of_length_le (by omega : (natToBits 4 ver).length ≤ 4)]
    simp [bitsToNat_natToBits 11 mfg hm, bitsToNat_natToBits 16 part hp,
          bitsToNat_natToBits 4 ver hv]
  · simp [DR_ADDRESS.to_bitarray, natToBits_length]
  · simp [DR_DATA.to_bitarray, natToBits_length]
  · simp [DR_IDCODE.to_bitarray, natToBits_length]

/-- Claim C8 witness: concrete round trips for each of the three
codecs at 32-bit values. -/
theorem codec_roundtrip_witness :
    DR_ADDRESS.from_bitarray (DR_ADDRESS.to_bitarray ⟨0xDEADBEEF⟩) = ⟨0xDEADBEEF⟩ ∧
    DR_DATA.from_bitarray (DR_DATA.to_bitarray ⟨0x12345678⟩) = ⟨0x12345678⟩ ∧
    DR_IDCODE.from_bitarray (DR_IDCODE.to_bitarray ⟨true, 0x123, 0x4567, 0x9⟩) =
      ⟨true, 0x123, 0x4567, 0x9⟩ := by
  have h := codec_roundtrip 0xDEADBEEF 0x12345678 ⟨true, 0x123, 0x4567, 0x9⟩
    (by decide) (by decide) (by decide) (by decide) (by decide)
  exact ⟨h.1, h.2.1, h.2.2.1⟩

/-- Claim C9: a failed `write` is not atomic: when polling raises the
transaction failure, the transport has already received the encoded
address, the encoded data and the `WRITE_*` opcode, and `write`
performs no transport operation after the failing status poll (the
trace ends at that poll). -/
theorem write_fail_not_atomic (resp : Nat → Bits) (fuel address data n : Nat)
    (space : String) (cmd : TxnCommand)
    (hspace : writeTxnCommandOf space = some cmd)
    (hpoll : pollsFailAt resp n) (hfuel : n < fuel) :
    write resp fuel address data space =
      some ([.writeIR .ADDRESS, .writeDRBits (natToBits 32 address),
             .writeIR .DATA, .writeDRBits (natToBits 32 data),
             .writeIR .TXN_COMMAND, .writeDRTxn cmd,
             .writeIR .STATUS] ++ List.replicate (n + 1) (.readDR 4),
            .error (.appletError "transaction failed")) ∧
    Event.writeDRBits (natToBits 32 address) ∈
      ([.writeIR .ADDRESS, .writeDRBits (natToBits 32 address),
        .writeIR .DATA, .writeDRBits (natToBits 32 data),
        .writeIR .TXN_COMMAND, .writeDRTxn cmd,
        .writeIR .STATUS] ++ List.replicate (n + 1) (Event.readDR 4)) ∧
    Event.writeDRBits (natToBits 32 data) ∈
      ([.writeIR .ADDRESS, .writeDRBits (natToBits 32 address),
        .writeIR .DATA, .writeDRBits (natToBits 32 data),
        .writeIR .TXN_COMMAND, .writeDRTxn cmd,
        .writeIR .STATUS] ++ List.replicate (n + 1) (Event.readDR 4)) ∧
    Event.writeDRTxn cmd ∈
      ([.writeIR .ADDRESS, .writeDRBits (natToBits 32 address),
        .writeIR .DATA, .writeDRBits (natToBits 32 data),
        .writeIR .TXN_COMMAND, .writeDRTxn cmd,
        .writeIR .STATUS] ++ List.replicate (n + 1) (Event.readDR 4)) ∧
    ([Event.writeIR IR.ADDRESS, Event.writeDRBits (natToBits 32 address),
      Event.writeIR IR.DATA, Event.writeDRBits (natToBits 32 data),
      Event.writeIR IR.TXN_COMMAND, Event.writeDRTxn cmd,
      Event.writeIR IR.STATUS] ++ List.replicate (n + 1) (Event.readDR 4)).getLast?
      = some (Event.readDR 4) := by
  refine ⟨?_, by simp, by simp, by simp, ?_⟩
  · unfold write
    rw [hspace, wait_txn_fail resp n fuel hpoll hfuel]
    simp [DR_ADDRESS.to_bitarray, DR_DATA.to_bitarray]
  · rw [List.replicate_succ', ← List.append_assoc, List.getLast?_concat]

/-- Claim C9 witness: a concrete failing `write` to the aux space with
all three payload shifts present in the trace. -/
theorem write_fail_not_atomic_witness :
    pollsFailAt respFail 0 ∧
    write respFail 1 7 9 "aux" =
      some ([.writeIR .ADDRESS, .writeDRBits (natToBits 32 7),
             .writeIR .DATA, .writeDRBits (natToBits 32 9),
             .writeIR .TXN_COMMAND, .writeDRTxn .WRITE_AUX,
             .writeIR .STATUS] ++ List.replicate 1 (.readDR 4),
            .error (.appletError "transaction failed")) :=
  ⟨by decide,
   (write_fail_not_atomic respFail 1 7 9 0 "aux" .WRITE_AUX
      (by decide) (by decide) (by decide)).1⟩

/-- Claim C10: the polling loop's status variable starts as the
zero-initialized STATUS with `RD` clear, so every `read` or `write`
that reaches the polling phase issues at least one 4-bit STATUS DR
shift, and a successful wait concludes only from a status actually
read from the transport (the last poll read back `RD` set). -/
theorem polling_reads_at_least_once (resp : Nat → Bits) (fuel address data : Nat)
    (space : String) :
    DR_STATUS.init.RD = false ∧
    (∀ tr j r, wait_txn resp fuel = some (tr, j, r) →
       Event.readDR 4 ∈ tr ∧ 1 ≤ j ∧
       (r = .ok () → (DR_STATUS.from_bitarray (resp (j - 1))).RD = true)) ∧
    (∀ cmd tr res, readTxnCommandOf space = some cmd →
       read resp fuel address space = some (tr, res) → Event.readDR 4 ∈ tr) ∧
    (∀ cmd tr res, writeTxnCommandOf space = some cmd →
       write resp fuel address data space = some (tr, res) → Event.readDR 4 ∈ tr) := by
  refine ⟨rfl, ?_, ?_, ?_⟩
  · intro tr j r h
    refine ⟨(wait_txn_reads resp fuel tr j r h).1, (wait_txn_reads resp fuel tr j r h).2, ?_⟩
    intro hr
    subst hr
    exact wait_txn_ok_last resp fuel tr j h
  · intro cmd tr res hcmd hread
    unfold read at hread
    rw [hcmd] at hread
    match hwt : wait_txn resp fuel with
    | none => rw [hwt] at hread; simp at hread
    | some (wtr, k, rr) =>
      have hmem := (wait_txn_reads resp fuel wtr k rr hwt).1
      rw [hwt] at hread
      cases rr with
      | error e =>
        simp at hread
        obtain ⟨htr, -⟩ := hread
        subst htr
        simp [hmem]
      | ok u =>
        simp at hread
        obtain ⟨htr, -⟩ := hread
        subst htr
        simp [hmem]
  · intro cmd tr res hcmd hwrite
    unfold write at hwrite
    rw [hcmd] at hwrite
    match hwt : wait_txn resp fuel with
    | none => rw [hwt] at hwrite; simp at hwrite
    | some (wtr, k, rr) =>
      have hmem := (wait_txn_reads resp fuel wtr k rr hwt).1
      rw [hwt] at hwrite
      simp at hwrite
      obtain ⟨htr, -⟩ := hwrite
      subst htr
      simp [hmem]

/-- Claim C10 witness: a concrete wait with fuel 1 performs exactly one
status read, and its success came from that read. -/
theorem polling_reads_at_least_once_witness :
    Event.readDR 4 ∈ [Event.writeIR IR.STATUS, Event.readDR 4] ∧
    (DR_STATUS.from_bitarray (respOk 0)).RD = true :=
  ⟨(((polling_reads_at_least_once respOk 1 0 0 "memory").2.1)
      [Event.writeIR IR.STATUS, Event.readDR 4] 1 (.ok ()) (by rfl)).1,
   (((polling_reads_at_least_once respOk 1 0 0 "memory").2.1)
      [Event.writeIR IR.STATUS, Event.readDR 4] 1 (.ok ()) (by rfl)).2.2 rfl⟩

end ArcJtag
